import Mathlib

/-!
Verification development for the worldy-whiz-kids quiz-generation engine and
narration playback queue.

The definitions below are a shallow embedding of the TypeScript source:
`QuizGenerator` (the template catalogs, the weighted selection loop, the
answer-shuffle step and the three public generators), the answer handler of the `Quiz`
component, and the `useTourAudio` hook (narration queue, mute handling,
cancellation, and the ElevenLabs audio memoization).

JavaScript-specific behaviour is modelled explicitly:
- a possibly-`undefined`/`null` string value is `Option String` (`none` is the
  absent value);
- `a || fb` on strings treats both the absent value and `""` as falsy;
- `arr[i]` out of bounds yields the absent value;
- `arr.indexOf x` yields the first index or `-1` (an `Int`);
- template-literal interpolation renders the absent value as `"undefined"`
  (or `"null"` for a null database field);
- `Array.prototype.sort` under a random comparator is modelled as an
  arbitrary permutation of the input, supplied as an oracle parameter;
- `Math.floor(Math.random() * n)` draws are supplied as an oracle list of
  naturals, reduced modulo the pool size;
- `Number.prototype.toLocaleString` is abstracted as decimal rendering.
-/

namespace WorldyWhiz

/-- A country row, from the `Country` interface of `QuizGenerator.ts`.
`currency` and `primary_language` are nullable in the data and the templates
defend them with `||` fallbacks, so they are modelled as `Option String`. -/
structure Country where
  id : String
  country_name : String
  iso2 : String
  continent : String
  capital : String
  population_millions : ℚ
  area_km2 : ℚ
  currency : Option String
  primary_language : Option String
  capital_lat : ℚ
  capital_lon : ℚ
deriving DecidableEq, Repr

/-- A point-of-interest row, from the `PointOfInterest` interface. -/
structure PointOfInterest where
  name : String
  poi_type : String
  description : String
deriving DecidableEq, Repr

/-- Question difficulty tag. -/
inductive Difficulty where
  | easy
  | medium
  | hard
deriving DecidableEq, Repr

/-- A generated question, from the `Question` interface.  An option slot can
hold the JavaScript `undefined` value (e.g. `countries[2]?.capital` with a
short country list), so `options : List (Option String)`; `correct` is an
`Int` because `indexOf` can return `-1`. -/
structure Question where
  question : String
  options : List (Option String)
  correct : ℤ
  explanation : String
  category : String
  difficulty : Difficulty
deriving DecidableEq, Repr

/-- JS `v || fb` for a possibly-absent string: `undefined`/`null` and `""`
are falsy. -/
def jsOrStr (v : Option String) (fb : String) : String :=
  match v with
  | some s => if s = "" then fb else s
  | none => fb

/-- JS `a > b` where `b` may be `undefined` (any comparison with `undefined`
is false). -/
def jsGtOpt (a : ℚ) (b : Option ℚ) : Bool :=
  match b with
  | some x => decide (x < a)
  | none => false

/-- JS `v || fb` on a possibly-absent number: `undefined` and `0` are falsy. -/
def jsOrQ (v : Option ℚ) (fb : ℚ) : ℚ :=
  match v with
  | some x => if x = 0 then fb else x
  | none => fb

/-- Template-literal rendering of a possibly-`undefined` string. -/
def optRender (v : Option String) : String :=
  v.getD "undefined"

/-- Template-literal rendering of a nullable database field. -/
def nullRender (v : Option String) : String :=
  v.getD "null"

/-- `others[i]?.f` for a non-nullable field `f`. -/
def othStr (os : List Country) (i : ℕ) (f : Country → String) : Option String :=
  (os.get? i).map f

/-- `others[i]?.f` for a nullable field `f`. -/
def othOptStr (os : List Country) (i : ℕ) (f : Country → Option String) : Option String :=
  (os.get? i).bind f

/-- `others[i]?.f` for a numeric field `f`. -/
def othQ (os : List Country) (i : ℕ) (f : Country → ℚ) : Option ℚ :=
  (os.get? i).map f

/-- First index of `a` in `l`, if present. -/
def firstIdx {α : Type} [DecidableEq α] : List α → α → Option ℕ
  | [], _ => none
  | x :: xs, a => if x = a then some 0 else (firstIdx xs a).map (· + 1)

/-- JS `l.indexOf a`: the first index of `a`, or `-1`. -/
def jsIndexOf {α : Type} [DecidableEq α] (l : List α) (a : α) : ℤ :=
  match firstIdx l a with
  | none => -1
  | some n => (n : ℤ)

/-- JS `l[i]` on an option-string array: out-of-bounds or negative access
yields the absent value, which coincides with an absent element. -/
def jsElem (l : List (Option String)) (i : ℤ) : Option String :=
  if 0 ≤ i then (l.get? i.toNat).getD none else none

/-- Abstracted number formatting (`toLocaleString` / template-literal
rendering of an integer). -/
def numFormat (n : ℤ) : String :=
  toString n

/-- A country-scoped question template with its selection weight, from
`questionTemplates.country`. -/
structure CountryTemplate where
  template : Country → List Country → Question
  weight : ℕ

/-- A continent-scoped question template with its selection weight, from
`questionTemplates.continent`. -/
structure ContinentTemplate where
  template : String → List Country → Question
  weight : ℕ

/-- Country template 1: capital lookup.  Note the options are
`[country.capital, ...others.slice(0, 3).map(c => c.capital)]` — fewer than
3 distractors give fewer than 4 options. -/
def capitalTemplate : CountryTemplate where
  template := fun c os =>
    { question := "What is the capital of " ++ c.country_name ++ "?"
      options := some c.capital :: (os.take 3).map (fun o => some o.capital)
      correct := 0
      explanation := c.capital ++ " is the capital city where the government of "
        ++ c.country_name ++ " operates!"
      category := "Geography"
      difficulty := .easy }
  weight := 3

/-- Country template 2: continent membership. -/
def continentOfTemplate : CountryTemplate where
  template := fun c _ =>
    { question := "Which continent is " ++ c.country_name ++ " located in?"
      options := [some c.continent, some "Antarctica", some "The Moon", some "Atlantis"]
      correct := 0
      explanation := c.country_name ++ " is part of the beautiful continent of "
        ++ c.continent ++ "!"
      category := "Geography"
      difficulty := .easy }
  weight := 3

/-- Country template 3: area comparison. -/
def areaTemplate : CountryTemplate where
  template := fun c os =>
    { question := "Which country is larger by area?"
      options :=
        [ if jsGtOpt c.area_km2 (othQ os 0 (·.area_km2))
            then some c.country_name else othStr os 0 (·.country_name)
        , if jsGtOpt c.area_km2 (othQ os 0 (·.area_km2))
            then othStr os 0 (·.country_name) else some c.country_name
        , some (jsOrStr (othStr os 1 (·.country_name)) "Narnia")
        , some (jsOrStr (othStr os 2 (·.country_name)) "Wonderland") ]
      correct := 0
      explanation :=
        optRender (if jsGtOpt c.area_km2 (othQ os 0 (·.area_km2))
          then some c.country_name else othStr os 0 (·.country_name))
        ++ " covers more land with "
        ++ numFormat (round (if jsGtOpt c.area_km2 (othQ os 0 (·.area_km2))
          then c.area_km2 else jsOrQ (othQ os 0 (·.area_km2)) 0))
        ++ " square kilometers!"
      category := "Geography"
      difficulty := .medium }
  weight := 2

/-- Country template 4: primary language. -/
def languageTemplate : CountryTemplate where
  template := fun c os =>
    { question := "What language do most people speak in " ++ c.country_name ++ "?"
      options :=
        [ some (jsOrStr c.primary_language "Unknown")
        , some (jsOrStr (othOptStr os 0 (·.primary_language)) "Dragon Language")
        , some (jsOrStr (othOptStr os 1 (·.primary_language)) "Robot Beeps")
        , some (jsOrStr (othOptStr os 2 (·.primary_language)) "Animal Sounds") ]
      correct := 0
      explanation := "Most people in " ++ c.country_name ++ " speak "
        ++ nullRender c.primary_language
        ++ "! Learning different languages helps us talk to friends around the world!"
      category := "Culture"
      difficulty := .easy }
  weight := 2

/-- Country template 5: currency. -/
def currencyTemplate : CountryTemplate where
  template := fun c os =>
    { question := "What currency (money) is used in " ++ c.country_name ++ "?"
      options :=
        [ some (jsOrStr c.currency "Unknown")
        , some (jsOrStr (othOptStr os 0 (·.currency)) "Magic Coins")
        , some (jsOrStr (othOptStr os 1 (·.currency)) "Chocolate Money")
        , some (jsOrStr (othOptStr os 2 (·.currency)) "Seashells") ]
      correct := 0
      explanation := "People in " ++ c.country_name ++ " use "
        ++ nullRender c.currency ++ " to buy things like toys and ice cream!"
      category := "Culture"
      difficulty := .medium }
  weight := 2

/-- Country template 6: population comparison. -/
def populationTemplate : CountryTemplate where
  template := fun c os =>
    { question := "Which country has more people living in it?"
      options :=
        [ if jsGtOpt c.population_millions (othQ os 0 (·.population_millions))
            then some c.country_name else othStr os 0 (·.country_name)
        , if jsGtOpt c.population_millions (othQ os 0 (·.population_millions))
            then othStr os 0 (·.country_name) else some c.country_name
        , some (jsOrStr (othStr os 1 (·.country_name)) "Toy Land")
        , some (jsOrStr (othStr os 2 (·.country_name)) "Pet Planet") ]
      correct := 0
      explanation :=
        optRender (if jsGtOpt c.population_millions (othQ os 0 (·.population_millions))
          then some c.country_name else othStr os 0 (·.country_name))
        ++ " has about "
        ++ numFormat (round (if jsGtOpt c.population_millions (othQ os 0 (·.population_millions))
          then c.population_millions else jsOrQ (othQ os 0 (·.population_millions)) 0))
        ++ " million people living there!"
      category := "Demographics"
      difficulty := .medium }
  weight := 2

/-- Country template 7: true/false continent membership. -/
def trueFalseTemplate : CountryTemplate where
  template := fun c _ =>
    { question := "True or False: " ++ c.country_name ++ " is in " ++ c.continent
      options := [some "True", some "False", some "Maybe", some "Only on weekends"]
      correct := 0
      explanation := "That\x27s absolutely true! " ++ c.country_name
        ++ " is proudly part of " ++ c.continent ++ "!"
      category := "Trivia"
      difficulty := .easy }
  weight := 1

/-- The conditionally registered landmark template built from a landmark POI
(the closure pushed by `generateCountryQuestions`). -/
def landmarkTemplate (lm : PointOfInterest) : CountryTemplate where
  template := fun c _ =>
    { question := "What famous landmark can you visit in " ++ c.country_name ++ "?"
      options := [some lm.name, some "Candy Castle", some "Dragon Cave", some "Magic School"]
      correct := 0
      explanation := lm.name ++ " is an amazing landmark in " ++ c.country_name
        ++ "! " ++ lm.description
      category := "Landmarks"
      difficulty := .medium }
  weight := 2

/-- The static country-scoped template catalog `questionTemplates.country`
(its value before any landmark template has been pushed). -/
def countryCatalogBase : List CountryTemplate :=
  [ capitalTemplate, continentOfTemplate, areaTemplate, languageTemplate
  , currencyTemplate, populationTemplate, trueFalseTemplate ]

/-- Continent template 1: membership by example. -/
def membershipTemplate : ContinentTemplate where
  template := fun cont cs =>
    { question := "Which of these countries is located in " ++ cont ++ "?"
      options :=
        [ othStr cs 0 (·.country_name)
        , some "Candy Kingdom", some "Robot City", some "Dragon Land" ]
      correct := 0
      explanation := optRender (othStr cs 0 (·.country_name))
        ++ " is indeed located in the amazing continent of " ++ cont ++ "!"
      category := "Geography"
      difficulty := .easy }
  weight := 3

/-- Continent template 2: capital of a member country. -/
def capitalMemberTemplate : ContinentTemplate where
  template := fun cont cs =>
    { question := "What is the capital of " ++ optRender (othStr cs 0 (·.country_name)) ++ "?"
      options :=
        [ othStr cs 0 (·.capital)
        , othStr cs 1 (·.capital)
        , othStr cs 2 (·.capital)
        , some "Ice Cream City" ]
      correct := 0
      explanation := optRender (othStr cs 0 (·.capital)) ++ " is the capital city of "
        ++ optRender (othStr cs 0 (·.country_name)) ++ " in " ++ cont ++ "!"
      category := "Geography"
      difficulty := .medium }
  weight := 2

/-- Continent template 3: identify the continent from two member countries. -/
def identifyTemplate : ContinentTemplate where
  template := fun cont cs =>
    { question := "Which continent has countries like "
        ++ optRender (othStr cs 0 (·.country_name)) ++ " and "
        ++ optRender (othStr cs 1 (·.country_name)) ++ "?"
      options := [some cont, some "Antarctica", some "The Lost Continent", some "Dinosaur Island"]
      correct := 0
      explanation := "Both " ++ optRender (othStr cs 0 (·.country_name)) ++ " and "
        ++ optRender (othStr cs 1 (·.country_name)) ++ " are wonderful countries in "
        ++ cont ++ "!"
      category := "Geography"
      difficulty := .easy }
  weight := 2

/-- Continent template 4: member-count trivia. -/
def memberCountTemplate : ContinentTemplate where
  template := fun cont cs =>
    { question := "How many countries are shown from " ++ cont ++ " in our explorer?"
      options :=
        [ some (toString cs.length)
        , some (toString (cs.length + 5))
        , some (toString ((cs.length : ℤ) - 2))
        , some "A million!" ]
      correct := 0
      explanation := "We have " ++ toString cs.length ++ " amazing countries from "
        ++ cont ++ " to explore in our world adventure!"
      category := "Trivia"
      difficulty := .hard }
  weight := 1

/-- The static continent-scoped template catalog `questionTemplates.continent`. -/
def continentCatalog : List ContinentTemplate :=
  [ membershipTemplate, capitalMemberTemplate, identifyTemplate, memberCountTemplate ]

/-- The answer-shuffle step applied in `selectCountryQuestions` /
`selectContinentQuestions`: remember `options[correct]`, replace `options`
by the (oracle-supplied) shuffled copy and reassign `correct` via `indexOf`. -/
def shuffleQuestion (shuf : List (Option String) → List (Option String)) (q : Question) :
    Question :=
  let correctAnswer := jsElem q.options q.correct
  let shuffledOptions := shuf q.options
  { q with options := shuffledOptions, correct := jsIndexOf shuffledOptions correctAnswer }

/-- The weighted selection pool: each template index appears `weight` times
(`templates.forEach((template, index) => { for (let i = 0; i < template.weight; i++) weightedPool.push(index); })`). -/
def weightedPool (weights : List ℕ) : List ℕ :=
  (List.range weights.length).flatMap fun i => List.replicate (weights.getD i 0) i

/-- The selection loop shared by `selectCountryQuestions` and
`selectContinentQuestions`.  `draws` is the oracle stream of
`Math.floor(Math.random() * weightedPool.length)` values (one consumed per
iteration, reduced modulo the pool size); `mk idx pos` renders template
`idx` as the question at output position `pos` (template application plus
answer shuffle).  Returns the used-template indices in draw order and the
question list; an exhausted draw stream ends the run early (the recorded
run is then a prefix of the real loop). -/
def selectLoop (count nTmpl : ℕ) (pool : List ℕ) (mk : ℕ → ℕ → Question) :
    List ℕ → List ℕ → List Question → List ℕ × List Question
  | [], used, qs => (used, qs)
  | d :: ds, used, qs =>
    if qs.length < count ∧ used.length < nTmpl then
      if pool.getD (d % pool.length) 0 ∈ used then
        selectLoop count nTmpl pool mk ds used qs
      else
        selectLoop count nTmpl pool mk ds (used ++ [pool.getD (d % pool.length) 0])
          (qs ++ [mk (pool.getD (d % pool.length) 0) qs.length])
    else (used, qs)

/-- A placeholder country template (never selected: the loop only applies
in-range indices). -/
def dfltCountryTemplate : CountryTemplate where
  template := fun _ _ =>
    { question := "", options := [], correct := 0, explanation := ""
      category := "", difficulty := .easy }
  weight := 0

/-- A placeholder continent template. -/
def dfltContinentTemplate : ContinentTemplate where
  template := fun _ _ =>
    { question := "", options := [], correct := 0, explanation := ""
      category := "", difficulty := .easy }
  weight := 0

/-- `QuizGenerator.selectCountryQuestions`, over an explicit catalog (the
source reads the shared static `questionTemplates.country`).  `shuf pos` is
the permutation the random sort applies to the options of the question at
output position `pos`. -/
def selectCountryQuestions (catalog : List CountryTemplate) (count : ℕ)
    (country : Country) (others : List Country) (draws : List ℕ)
    (shuf : ℕ → List (Option String) → List (Option String)) :
    List ℕ × List Question :=
  selectLoop count catalog.length (weightedPool (catalog.map (·.weight)))
    (fun idx pos =>
      shuffleQuestion (shuf pos) (((catalog.getD idx dfltCountryTemplate).template) country others))
    draws [] []

/-- `QuizGenerator.selectContinentQuestions`, over an explicit catalog. -/
def selectContinentQuestions (catalog : List ContinentTemplate) (count : ℕ)
    (continent : String) (countries : List Country) (draws : List ℕ)
    (shuf : ℕ → List (Option String) → List (Option String)) :
    List ℕ × List Question :=
  selectLoop count catalog.length (weightedPool (catalog.map (·.weight)))
    (fun idx pos =>
      shuffleQuestion (shuf pos) (((catalog.getD idx dfltContinentTemplate).template) continent countries))
    draws [] []

/-- `QuizGenerator.generateCountryQuestions`.  The three store fetches are
oracle parameters: `.error ()` is a thrown network error (caught by the
`try`/`catch`, which returns `[]`), `.ok none` is a null `data` field and
`.ok (some rows)` a row list.  The country-scoped catalog is passed and
returned explicitly because the source mutates the shared static
`questionTemplates.country` array: when a `landmark`-typed POI is found, a
landmark template closure is pushed onto it before selection. -/
def generateCountryQuestions (catalog : List CountryTemplate) (count : ℕ)
    (country : Country)
    (fetchSameContinent fetchOtherCountries : Except Unit (Option (List Country)))
    (fetchPois : Except Unit (Option (List PointOfInterest)))
    (draws : List ℕ) (shuf : ℕ → List (Option String) → List (Option String)) :
    List CountryTemplate × List Question :=
  match fetchSameContinent, fetchOtherCountries, fetchPois with
  | .ok sameContinent, .ok otherCountries, .ok pois =>
    let allOthers := sameContinent.getD [] ++ otherCountries.getD []
    let catalog' :=
      match pois with
      | some ps =>
        if 0 < ps.length then
          match ps.find? (fun poi => poi.poi_type = "landmark") with
          | some landmark => catalog ++ [landmarkTemplate landmark]
          | none => catalog
        else catalog
      | none => catalog
    (catalog', (selectCountryQuestions catalog' count country allOthers draws shuf).2)
  | _, _, _ => (catalog, [])

/-- `QuizGenerator.generateContinentQuestions`.  `shufCountries` is the
permutation applied by `[...countries].sort(() => Math.random() - 0.5)`. -/
def generateContinentQuestions (catalog : List ContinentTemplate) (count : ℕ)
    (continent : String) (fetchCountries : Except Unit (Option (List Country)))
    (shufCountries : List Country → List Country) (draws : List ℕ)
    (shuf : ℕ → List (Option String) → List (Option String)) : List Question :=
  match fetchCountries with
  | .error _ => []
  | .ok countries =>
    match countries with
    | none => []
    | some cs =>
      if cs.length = 0 then []
      else (selectContinentQuestions catalog count continent (shufCountries cs) draws shuf).2

/-- A placeholder country (never selected when the fetched list is
nonempty). -/
def dfltCountry : Country :=
  ⟨"", "", "", "", "", 0, 0, none, none, 0, 0⟩

/-- The fixed six-value continent enumeration used by `generateRandomQuiz`. -/
def continentsList : List String :=
  ["Africa", "Asia", "Europe", "North America", "South America", "Oceania"]

/-- `QuizGenerator.generateRandomQuiz`.  `pick1`/`pick2` are the oracle
values of the two `Math.floor(Math.random() * n)` draws; the catalog is
threaded through the nested `generateCountryQuestions` call. -/
def generateRandomQuiz (catalogC : List CountryTemplate)
    (catalogT : List ContinentTemplate) (count : ℕ)
    (fetchAllCountries : Except Unit (Option (List Country))) (pick1 pick2 : ℕ)
    (fetchSameContinent fetchOtherCountries : Except Unit (Option (List Country)))
    (fetchPois : Except Unit (Option (List PointOfInterest)))
    (fetchContCountries : Except Unit (Option (List Country)))
    (shufCountries : List Country → List Country) (draws1 draws2 : List ℕ)
    (shuf1 shuf2 : ℕ → List (Option String) → List (Option String)) :
    List CountryTemplate × List Question :=
  match fetchAllCountries with
  | .error _ => (catalogC, [])
  | .ok allCountries =>
    match allCountries with
    | none => (catalogC, [])
    | some cs =>
      if cs.length = 0 then (catalogC, [])
      else
        let randomCountry := cs.getD (pick1 % cs.length) dfltCountry
        let randomContinent := continentsList.getD (pick2 % continentsList.length) ""
        let countryStep := generateCountryQuestions catalogC ((count + 1) / 2) randomCountry
          fetchSameContinent fetchOtherCountries fetchPois draws1 shuf1
        let continentQuestions := generateContinentQuestions catalogT (count / 2)
          randomContinent fetchContCountries shufCountries draws2 shuf2
        (countryStep.1, (countryStep.2 ++ continentQuestions).take count)

/-! ### Narration queue (`useTourAudio`, speech-synthesis version)

The hook is single-threaded and callback-driven; we model it as a
deterministic transition system whose atomic steps are the run-to-completion
segments between the suspension points of the loop (awaiting utterance completion,
and awaiting the 500 ms inter-item pause).  Queued requests are identified by
a natural number; an event trace records, per request, the start of audible
playback and the firing of its completion callback.  The `isMuted` prop is
not a ref: it is captured by the `processQueue` closure (the `useCallback`
dependency list `[isMuted, speed, volume]`), so the `if (isMuted)` test at
the top of each loop iteration reads the value the closure captured when
the loop started, not the live prop.  The model therefore keeps two flags:
`muted`, the live prop value, and `loopMuted`, the value captured by the
closure running the current loop — set from `muted` when a loop starts and
left untouched by later toggles. -/

/-- Observable narration events: `play id` — audible playback of request
`id` begins (`synth.speak`); `done id` — the `onComplete`
callback of request `id` fires. -/
inductive Ev where
  | play (id : ℕ)
  | done (id : ℕ)
deriving DecidableEq, Repr

/-- Where the (single, in the scenarios we prove about) processing loop is
suspended: not running, awaiting utterance completion, or inside the 500 ms
inter-item `setTimeout`. -/
inductive Phase where
  | idle
  | speaking
  | pausing
deriving DecidableEq, Repr

/-- The narration queue state: the pending request queue (`audioQueueRef`),
the reentrancy flag (`isProcessingRef`), the in-flight utterance
(`currentUtteranceRef`), the live `isMuted` prop value (`muted`), the
`isMuted` value captured by the `processQueue` closure running the current
loop (`loopMuted` — set when a loop starts, meaningful while it is live),
the `isNarrating` UI flag, the loop phase, the event trace, and a count of
processing loops started and not yet exited (for the reentrancy-guard
claim). -/
structure QState where
  queue : List ℕ
  processing : Bool
  current : Option ℕ
  muted : Bool
  loopMuted : Bool
  narrating : Bool
  phase : Phase
  events : List Ev
  loops : ℕ
deriving DecidableEq, Repr

/-- One run-to-completion pass of the `while` body of `processQueue`,
starting from a dequeue: muted requests fire `onComplete` immediately and
the loop continues; the first unmuted request starts audible playback and
the loop suspends.  Returns (events emitted, remaining queue, in-flight
request if the loop suspended). -/
def loopGo (muted : Bool) : List ℕ → List Ev × List ℕ × Option ℕ
  | [] => ([], [], none)
  | id :: rest =>
    if muted then
      let r := loopGo muted rest
      (Ev.done id :: r.1, r.2.1, r.2.2)
    else ([Ev.play id], rest, some id)

/-- Resume the processing loop until it suspends (at `synth.speak`) or
exits (`setIsNarrating(false); isProcessingRef.current = false`).  The
`if (isMuted)` test uses `loopMuted`, the value the closure running this
loop captured when it started. -/
def loopRun (s : QState) : QState :=
  match loopGo s.loopMuted s.queue with
  | (evs, q', none) =>
    { s with queue := q', events := s.events ++ evs, processing := false
           , narrating := false, phase := .idle, loops := s.loops - 1 }
  | (evs, q', some id) =>
    { s with queue := q', events := s.events ++ evs, current := some id
           , phase := .speaking }

/-- `queueNarration(text, onComplete)`: push the request, then call
`processQueue`, whose guard returns at once when a loop is already running
(or the queue is empty); otherwise a new loop starts and runs to its first
suspension point.  The starting loop is the latest-rendered closure, so it
captures the current `isMuted` prop value as its `loopMuted`. -/
def enqueueStep (s : QState) (id : ℕ) : QState :=
  let s1 := { s with queue := s.queue ++ [id] }
  if s1.processing ∨ s1.queue = [] then s1
  else loopRun { s1 with processing := true, narrating := true, loops := s1.loops + 1,
                         loopMuted := s1.muted }

/-- The platform delivers `utterance.onend` for the in-flight request: the
handler clears `currentUtteranceRef`, fires `onComplete` and resolves the
playback promise; the loop then sits in the 500 ms inter-item pause. -/
def playbackEndsStep (s : QState) : QState :=
  match s.current with
  | none => s
  | some id =>
    { s with current := none, events := s.events ++ [Ev.done id], phase := .pausing }

/-- The 500 ms inter-item `setTimeout` fires and the loop resumes. -/
def timerStep (s : QState) : QState :=
  if s.phase = .pausing then loopRun s else s

/-- `stopNarration()`: clear the queue, drop the reentrancy flag and the UI
flag; if an utterance is in flight, `synth.cancel()` — the platform then
delivers an error event to that utterance, and its `onerror` handler clears
the ref, fires `onComplete` and resolves the playback promise (the loop is
left in the inter-item pause). -/
def stopStep (s : QState) : QState :=
  let s1 := { s with queue := [], processing := false, narrating := false }
  match s1.current with
  | none => s1
  | some id =>
    { s1 with current := none, events := s1.events ++ [Ev.done id], phase := .pausing }

/-- External stimuli of the narration queue model. -/
inductive Act where
  | enq (id : ℕ)
  | playbackEnds
  | timerFires
  | setMuted (b : Bool)
  | stop
deriving DecidableEq, Repr

/-- The deterministic step function of the narration queue.  `setMuted`
re-renders the hook with a new `isMuted` prop: it updates the live value
only — a running loop keeps the `loopMuted` its closure captured, and only
loops started afterwards see the new value. -/
def stepQ (s : QState) : Act → QState
  | .enq id => enqueueStep s id
  | .playbackEnds => playbackEndsStep s
  | .timerFires => timerStep s
  | .setMuted b => { s with muted := b }
  | .stop => stopStep s

/-- The initial hook state (empty queue, nothing in flight, unmuted). -/
def initQ : QState :=
  ⟨[], false, none, false, false, false, .idle, [], 0⟩

/-- Run a stimulus script from the initial state. -/
def runQ (acts : List Act) : QState :=
  acts.foldl stepQ initQ

/-- The stimuli available while no cancellation or mute toggling happens:
enqueues, utterance completions and pause-timer expirations. -/
def basicAct : Act → Bool
  | .enq _ => true
  | .playbackEnds => true
  | .timerFires => true
  | _ => false

/-- The request ids a script submits, in submission order. -/
def enqIds (acts : List Act) : List ℕ :=
  acts.filterMap fun a =>
    match a with
    | .enq id => some id
    | _ => none

/-- The trace of a fully played FIFO prefix: each request plays to
completion before the next starts. -/
def fifoTrace (l : List ℕ) : List Ev :=
  l.flatMap fun id => [Ev.play id, Ev.done id]

/-- `[Ev.play id]` for an in-flight request, `[]` otherwise. -/
def optPlay : Option ℕ → List Ev
  | some id => [Ev.play id]
  | none => []

/-- The in-flight request as a list. -/
def optList : Option ℕ → List ℕ
  | some id => [id]
  | none => []

/-! ### Quiz session runner (`Quiz.handleAnswerSelect`) -/

/-- The component state driving one quiz session: the question cursor, the
score, and the trace of `onComplete(score, total)` invocations. -/
structure SessionState where
  currentQuestion : ℕ
  score : ℕ
  completions : List (ℕ × ℕ)
deriving DecidableEq, Repr

/-- A placeholder question (the component guards
`!questions[currentQuestion]` before the handler can run). -/
def dfltQuestion : Question :=
  { question := "", options := [], correct := 0, explanation := ""
  , category := "", difficulty := .easy }

/-- `Quiz.handleAnswerSelect(answerIndex)` followed by its 3-second
timeout body: score the selection against `questions[currentQuestion]`,
then either advance the cursor or fire
`onComplete(score + (answerIndex === correct ? 1 : 0), questions.length)`. -/
def handleAnswerSelect (questions : List Question) (s : SessionState)
    (answerIndex : ℤ) : SessionState :=
  let q := questions.getD s.currentQuestion dfltQuestion
  let isCorrect := answerIndex = q.correct
  let score' := if isCorrect then s.score + 1 else s.score
  if s.currentQuestion + 1 < questions.length then
    { currentQuestion := s.currentQuestion + 1, score := score'
    , completions := s.completions }
  else
    { s with score := score'
           , completions := s.completions
               ++ [(s.score + (if isCorrect then 1 else 0), questions.length)] }

/-- A full session: one accepted selection per question, in order. -/
def runSession (questions : List Question) (answers : List ℤ) : SessionState :=
  answers.foldl (handleAnswerSelect questions) ⟨0, 0, []⟩

/-- The number of answers in `answers` that match the `correct` index of
the question at the same position, counting from question `i`. -/
def countCorrectFrom (questions : List Question) : ℕ → List ℤ → ℕ
  | _, [] => 0
  | i, a :: as =>
    (if a = (questions.getD i dfltQuestion).correct then 1 else 0)
      + countCorrectFrom questions (i + 1) as

/-- The correct-answer count of the learner for a session. -/
def countCorrect (questions : List Question) (answers : List ℤ) : ℕ :=
  countCorrectFrom questions 0 answers

/-! ### ElevenLabs audio memoization (`useTourAudio.generateAudio`) -/

/-- The audio cache state: `audioCacheRef` as an association list from cache
key to object URL (later entries shadow earlier ones, like `Map.set`), plus
a count of text-to-speech synthesis invocations
(`supabase.functions.invoke` of the text-to-speech function). -/
structure CacheState where
  cache : List (String × String)
  synthCalls : ℕ
deriving DecidableEq, Repr

/-- Association-list lookup (`Map.get`). -/
def lookupKey : List (String × String) → String → Option String
  | [], _ => none
  | (k, v) :: rest, key => if k = key then some v else lookupKey rest key

/-- `generateAudio(text)` in the ElevenLabs-backed hook rendered with
playback speed `speed` (a JS number, modelled by its decimal rendering,
which is what the key concatenation uses): return the cached URL for
`` `${text}_${speed}` `` if present; otherwise invoke synthesis
(`synthesize text`, an oracle that may fail), cache the fresh URL on
success, and return it.  A failed invocation is counted but caches
nothing (the error is rethrown). -/
def generateAudio (synthesize : String → Option String) (speed : String)
    (st : CacheState) (text : String) : CacheState × Option String :=
  let cacheKey := text ++ "_" ++ speed
  match lookupKey st.cache cacheKey with
  | some cachedAudio => (st, some cachedAudio)
  | none =>
    match synthesize text with
    | none => ({ st with synthCalls := st.synthCalls + 1 }, none)
    | some audioUrl =>
      ({ cache := (cacheKey, audioUrl) :: st.cache, synthCalls := st.synthCalls + 1 }
      , some audioUrl)

/-! ### Helper lemmas -/

theorem firstIdx_spec {α : Type} [DecidableEq α] :
    ∀ (l : List α) (a : α) (n : ℕ), firstIdx l a = some n →
      n < l.length ∧ l.get? n = some a ∧ ∀ m, m < n → l.get? m ≠ some a := by
  intro l
  induction l with
  | nil => intro a n h; simp [firstIdx] at h
  | cons x xs ih =>
    intro a n h
    by_cases hx : x = a
    · simp [firstIdx, hx] at h
      subst h
      refine ⟨Nat.succ_pos _, by simp [hx], ?_⟩
      intro m hm
      omega
    · simp [firstIdx, hx] at h
      obtain ⟨k, hk, rfl⟩ := h
      obtain ⟨h1, h2, h3⟩ := ih a k hk
      refine ⟨by simpa using Nat.succ_lt_succ h1, by simpa using h2, ?_⟩
      intro m hm
      cases m with
      | zero => simpa using fun he => hx he
      | succ j => simpa using h3 j (Nat.lt_of_succ_lt_succ hm)

theorem firstIdx_isSome_of_mem {α : Type} [DecidableEq α] :
    ∀ (l : List α) (a : α), a ∈ l → ∃ n, firstIdx l a = some n := by
  intro l
  induction l with
  | nil => intro a h; simp at h
  | cons x xs ih =>
    intro a h
    by_cases hx : x = a
    · exact ⟨0, by simp [firstIdx, hx]⟩
    · have : a ∈ xs := by
        rcases List.mem_cons.mp h with h' | h'
        · exact absurd h'.symm hx
        · exact h'
      obtain ⟨n, hn⟩ := ih a this
      exact ⟨n + 1, by simp [firstIdx, hx, hn]⟩

/-- The core shuffle fact: on a question whose `correct` index is in range,
replacing the options by any permutation and reassigning `correct` through
`indexOf` keeps `correct` a valid index, keeps `options[correct]` equal to
the pre-shuffle designated text, and lands on the first occurrence of that
text. -/
theorem shuffleQuestion_spec (q : Question)
    (shuf : List (Option String) → List (Option String))
    (hperm : (shuf q.options).Perm q.options)
    (h0 : 0 ≤ q.correct) (hlt : q.correct.toNat < q.options.length) :
    0 ≤ (shuffleQuestion shuf q).correct ∧
    (shuffleQuestion shuf q).correct.toNat < (shuffleQuestion shuf q).options.length ∧
    jsElem (shuffleQuestion shuf q).options (shuffleQuestion shuf q).correct
      = jsElem q.options q.correct ∧
    ∀ m, m < (shuffleQuestion shuf q).correct.toNat →
      (shuffleQuestion shuf q).options.get? m ≠ some (jsElem q.options q.correct) := by
  have hget : q.options.get? q.correct.toNat = some (jsElem q.options q.correct) := by
    have h := List.get?_eq_get (l := q.options) hlt
    unfold jsElem
    rw [if_pos h0, h]
    simp
  have hmem : jsElem q.options q.correct ∈ q.options :=
    List.get?_mem hget
  have hmem' : jsElem q.options q.correct ∈ shuf q.options :=
    (hperm.mem_iff).mpr hmem
  obtain ⟨n, hn⟩ := firstIdx_isSome_of_mem _ _ hmem'
  obtain ⟨hnlt, hnget, hnfirst⟩ := firstIdx_spec _ _ _ hn
  have hcorr : (shuffleQuestion shuf q).correct = (n : ℤ) := by
    simp [shuffleQuestion, jsIndexOf, hn]
  have hopts : (shuffleQuestion shuf q).options = shuf q.options := by
    simp [shuffleQuestion]
  refine ⟨by simp [hcorr], ?_, ?_, ?_⟩
  · rw [hcorr, hopts]
    simpa using hnlt
  · rw [hcorr, hopts]
    have hje : jsElem (shuf q.options) (n : ℤ) = ((shuf q.options).get? n).getD none := by
      unfold jsElem
      simp
    rw [hje, hnget]
    rfl
  · intro m hm
    rw [hopts]
    rw [hcorr] at hm
    exact hnfirst m (by simpa using hm)

/-- Every element of the weighted pool is an in-range template index. -/
theorem weightedPool_lt (weights : List ℕ) :
    ∀ x ∈ weightedPool weights, x < weights.length := by
  intro x hx
  unfold weightedPool at hx
  simp only [List.mem_flatMap] at hx
  obtain ⟨i, hi, hrep⟩ := hx
  have := List.eq_of_mem_replicate hrep
  subst this
  exact List.mem_range.mp hi

/-- `pool.getD k 0` is an in-range index whenever the entries of the pool are and
the catalog is nonempty. -/
theorem pool_getD_lt {pool : List ℕ} {nTmpl : ℕ} (hpool : ∀ x ∈ pool, x < nTmpl)
    (hpos : 0 < nTmpl) (k : ℕ) : pool.getD k 0 < nTmpl := by
  rw [List.getD_eq_getElem?_getD]
  rcases h : pool[k]? with _ | x
  · simpa [h] using hpos
  · have hx : x ∈ pool := List.getElem?_mem h
    simpa [h] using hpool x hx

/-- The selection-loop invariant: used indices stay distinct and in range,
the question count equals the used count, and the question count never
exceeds `count`. -/
theorem selectLoop_inv (count nTmpl : ℕ) (pool : List ℕ)
    (mk : ℕ → ℕ → Question) (hpool : ∀ x ∈ pool, x < nTmpl) :
    ∀ (ds used : List ℕ) (qs : List Question),
      used.Nodup → qs.length = used.length → (∀ x ∈ used, x < nTmpl) →
      qs.length ≤ count →
      ((selectLoop count nTmpl pool mk ds used qs).1.Nodup ∧
       (selectLoop count nTmpl pool mk ds used qs).2.length
         = (selectLoop count nTmpl pool mk ds used qs).1.length ∧
       (∀ x ∈ (selectLoop count nTmpl pool mk ds used qs).1, x < nTmpl) ∧
       (selectLoop count nTmpl pool mk ds used qs).2.length ≤ count) := by
  intro ds
  induction ds with
  | nil =>
    intro used qs h1 h2 h3 h4
    exact ⟨h1, by simpa [selectLoop] using h2, by simpa [selectLoop] using h3,
      by simpa [selectLoop] using h4⟩
  | cons d ds ih =>
    intro used qs h1 h2 h3 h4
    rw [selectLoop]
    by_cases hc : qs.length < count ∧ used.length < nTmpl
    · rw [if_pos hc]
      by_cases hmem : pool.getD (d % pool.length) 0 ∈ used
      · rw [if_pos hmem]
        exact ih used qs h1 h2 h3 h4
      · rw [if_neg hmem]
        have hidx : pool.getD (d % pool.length) 0 < nTmpl :=
          pool_getD_lt hpool (Nat.lt_of_le_of_lt (Nat.zero_le _) hc.2) _
        refine ih (used ++ [pool.getD (d % pool.length) 0])
          (qs ++ [mk (pool.getD (d % pool.length) 0) qs.length]) ?_ ?_ ?_ ?_
        · simpa [List.nodup_append, h1] using hmem
        · simp [h2]
        · intro x hx
          rcases List.mem_append.mp hx with hx' | hx'
          · exact h3 x hx'
          · rw [List.mem_singleton] at hx'
            subst hx'
            exact hidx
        · simpa using hc.1
    · rw [if_neg hc]
      exact ⟨h1, h2, h3, h4⟩

/-- An in-range `getD` is a member of the list. -/
theorem getD_mem_of_lt {α : Type} (l : List α) (i : ℕ) (d : α) (h : i < l.length) :
    l.getD i d ∈ l := by
  rw [List.getD_eq_getElem?_getD, List.getElem?_eq_getElem h]
  exact List.getElem_mem h

/-- Every question a selection run emits comes from applying `mk` to an
in-range template index and an output position. -/
theorem selectLoop_out (count nTmpl : ℕ) (pool : List ℕ) (mk : ℕ → ℕ → Question)
    (hpool : ∀ x ∈ pool, x < nTmpl) :
    ∀ (ds used : List ℕ) (qs : List Question),
      ∀ q ∈ (selectLoop count nTmpl pool mk ds used qs).2,
        q ∈ qs ∨ ∃ i pos, i < nTmpl ∧ q = mk i pos := by
  intro ds
  induction ds with
  | nil =>
    intro used qs q hq
    exact Or.inl (by simpa [selectLoop] using hq)
  | cons d ds ih =>
    intro used qs q hq
    rw [selectLoop] at hq
    by_cases hc : qs.length < count ∧ used.length < nTmpl
    · rw [if_pos hc] at hq
      by_cases hmem : pool.getD (d % pool.length) 0 ∈ used
      · rw [if_pos hmem] at hq
        exact ih used qs q hq
      · rw [if_neg hmem] at hq
        have hidx : pool.getD (d % pool.length) 0 < nTmpl :=
          pool_getD_lt hpool (Nat.lt_of_le_of_lt (Nat.zero_le _) hc.2) _
        rcases ih _ _ q hq with hin | hout
        · rcases List.mem_append.mp hin with hin' | hin'
          · exact Or.inl hin'
          · rw [List.mem_singleton] at hin'
            exact Or.inr ⟨_, _, hidx, hin'⟩
        · exact Or.inr hout
    · rw [if_neg hc] at hq
      exact Or.inl hq

/-- Every template of the static country catalog designates index 0 as
correct and emits a nonempty option list. -/
theorem countryCatalogBase_ok :
    ∀ tm ∈ countryCatalogBase, ∀ (c : Country) (os : List Country),
      (tm.template c os).correct = 0 ∧ (tm.template c os).options ≠ [] := by
  intro tm htm c os
  simp only [countryCatalogBase, List.mem_cons, List.mem_singleton, List.not_mem_nil,
    or_false] at htm
  rcases htm with rfl | rfl | rfl | rfl | rfl | rfl | rfl <;>
    exact ⟨rfl, by simp [capitalTemplate, continentOfTemplate, areaTemplate,
      languageTemplate, currencyTemplate, populationTemplate, trueFalseTemplate]⟩

/-- The dynamically registered landmark template also designates index 0 and
emits four options. -/
theorem landmarkTemplate_ok :
    ∀ (lm : PointOfInterest) (c : Country) (os : List Country),
      ((landmarkTemplate lm).template c os).correct = 0 ∧
      ((landmarkTemplate lm).template c os).options ≠ [] := by
  intro lm c os
  exact ⟨rfl, by simp [landmarkTemplate]⟩

/-- Every template of the static continent catalog designates index 0 as
correct and emits a nonempty option list. -/
theorem continentCatalog_ok :
    ∀ tm ∈ continentCatalog, ∀ (cont : String) (cs : List Country),
      (tm.template cont cs).correct = 0 ∧ (tm.template cont cs).options ≠ [] := by
  intro tm htm cont cs
  simp only [continentCatalog, List.mem_cons, List.mem_singleton, List.not_mem_nil,
    or_false] at htm
  rcases htm with rfl | rfl | rfl | rfl <;>
    exact ⟨rfl, by simp [membershipTemplate, capitalMemberTemplate, identifyTemplate,
      memberCountTemplate]⟩

/-- The country catalog as `generateCountryQuestions` uses it: the static
catalog, possibly extended with a landmark template. -/
theorem countryCatalog_ext_ok (lm : Option PointOfInterest) :
    ∀ tm ∈ countryCatalogBase ++ (lm.map landmarkTemplate).toList,
      ∀ (c : Country) (os : List Country),
        (tm.template c os).correct = 0 ∧ (tm.template c os).options ≠ [] := by
  intro tm htm c os
  rcases List.mem_append.mp htm with h | h
  · exact countryCatalogBase_ok tm h c os
  · cases lm with
    | none => exact absurd h (by simp)
    | some p =>
      rw [show (Option.map landmarkTemplate (some p)).toList = [landmarkTemplate p] from rfl,
        List.mem_singleton] at h
      subst h
      exact landmarkTemplate_ok p c os

/-- Sample data used by concrete witnesses. -/
def sampleCountry : Country :=
  ⟨"id1", "Japan", "JP", "Asia", "Tokyo", 125, 377975, some "Yen", some "Japanese", 35, 139⟩

/-- A second sample country. -/
def sampleCountry2 : Country :=
  ⟨"id2", "France", "FR", "Europe", "Paris", 68, 643801, some "Euro", some "French", 48, 2⟩

/-- A sample landmark point of interest. -/
def samplePOI : PointOfInterest :=
  ⟨"Mount Fuji", "landmark", "A beautiful volcano."⟩

/-- Questions drawn by a selection run, with the answer shuffle applied to
each, keep a valid `correct` index pointing at the first occurrence of the
designated (index 0) answer text of the template.  `render i` is template `i`
applied to the focal data. -/
theorem selectLoop_shuffle_good (count nTmpl : ℕ) (pool : List ℕ)
    (hpool : ∀ x ∈ pool, x < nTmpl) (render : ℕ → Question)
    (shuf : ℕ → List (Option String) → List (Option String))
    (hshuf : ∀ pos l, (shuf pos l).Perm l)
    (hok : ∀ i, i < nTmpl → (render i).correct = 0 ∧ (render i).options ≠ [])
    (draws : List ℕ) :
    ∀ q ∈ (selectLoop count nTmpl pool
        (fun i pos => shuffleQuestion (shuf pos) (render i)) draws [] []).2,
      0 ≤ q.correct ∧ q.correct.toNat < q.options.length ∧
      ∃ i pos, i < nTmpl ∧ q = shuffleQuestion (shuf pos) (render i) ∧
        jsElem q.options q.correct = jsElem (render i).options 0 ∧
        ∀ m, m < q.correct.toNat → q.options.get? m ≠ some (jsElem q.options q.correct) := by
  intro q hq
  rcases selectLoop_out count nTmpl pool _ hpool draws [] [] q hq with hin | ⟨i, pos, hi, rfl⟩
  · simp at hin
  obtain ⟨h0, hne⟩ := hok i hi
  have hlt : (render i).correct.toNat < (render i).options.length := by
    rw [h0]
    simpa using List.length_pos.mpr hne
  obtain ⟨s0, s1, s2, s3⟩ :=
    shuffleQuestion_spec (render i) (shuf pos) (hshuf pos _) (by rw [h0]) hlt
  refine ⟨s0, s1, i, pos, hi, rfl, ?_, ?_⟩
  · rw [s2, h0]
  · intro m hm
    rw [s2, h0]
    have := s3 m hm
    rwa [show jsElem (render i).options (render i).correct = jsElem (render i).options 0 by
      rw [h0]] at this

/-- **C1**: every Question returned by the country-scoped and
continent-scoped selectors (over the catalog as the generators use it —
the static country catalog possibly extended by a landmark template, and
the static continent catalog) has, after its option list is shuffled, a
`correct` field that is a valid index into `options`, with
`options[correct]` equal to the literal text the originating template
placed at index 0, and `correct` pointing at the first occurrence of that
text. -/
theorem c1_correct_preserved_under_shuffle
    (shuf : ℕ → List (Option String) → List (Option String))
    (hshuf : ∀ pos l, (shuf pos l).Perm l)
    (lm : Option PointOfInterest) (count : ℕ) (c : Country) (os : List Country)
    (cont : String) (cs : List Country) (draws drawsT : List ℕ) :
    (∀ q ∈ (selectCountryQuestions (countryCatalogBase ++ (lm.map landmarkTemplate).toList)
        count c os draws shuf).2,
      0 ≤ q.correct ∧ q.correct.toNat < q.options.length ∧
      ∃ i pos, i < (countryCatalogBase ++ (lm.map landmarkTemplate).toList).length ∧
        q = shuffleQuestion (shuf pos)
          (((countryCatalogBase ++ (lm.map landmarkTemplate).toList).getD i
            dfltCountryTemplate).template c os) ∧
        jsElem q.options q.correct
          = jsElem (((countryCatalogBase ++ (lm.map landmarkTemplate).toList).getD i
              dfltCountryTemplate).template c os).options 0 ∧
        ∀ m, m < q.correct.toNat → q.options.get? m ≠ some (jsElem q.options q.correct)) ∧
    (∀ q ∈ (selectContinentQuestions continentCatalog count cont cs drawsT shuf).2,
      0 ≤ q.correct ∧ q.correct.toNat < q.options.length ∧
      ∃ i pos, i < continentCatalog.length ∧
        q = shuffleQuestion (shuf pos)
          ((continentCatalog.getD i dfltContinentTemplate).template cont cs) ∧
        jsElem q.options q.correct
          = jsElem ((continentCatalog.getD i dfltContinentTemplate).template cont cs).options 0 ∧
        ∀ m, m < q.correct.toNat → q.options.get? m ≠ some (jsElem q.options q.correct)) := by
  constructor
  · have hpool : ∀ x ∈ weightedPool ((countryCatalogBase
        ++ (lm.map landmarkTemplate).toList).map (·.weight)),
        x < (countryCatalogBase ++ (lm.map landmarkTemplate).toList).length := by
      intro x hx
      have := weightedPool_lt _ x hx
      simpa using this
    exact selectLoop_shuffle_good _ _ _ hpool
      (fun i => ((countryCatalogBase ++ (lm.map landmarkTemplate).toList).getD i
        dfltCountryTemplate).template c os) shuf hshuf
      (fun i hi => countryCatalog_ext_ok lm _ (getD_mem_of_lt _ i _ hi) c os) draws
  · have hpool : ∀ x ∈ weightedPool (continentCatalog.map (·.weight)),
        x < continentCatalog.length := by
      intro x hx
      have := weightedPool_lt _ x hx
      simpa using this
    exact selectLoop_shuffle_good _ _ _ hpool
      (fun i => (continentCatalog.getD i dfltContinentTemplate).template cont cs) shuf hshuf
      (fun i hi => continentCatalog_ok _ (getD_mem_of_lt _ i _ hi) cont cs) drawsT

/-- Witness for C1 at a concrete shuffle (reversal), focal data and draw
streams. -/
theorem c1_correct_preserved_under_shuffle_witness :
    (∀ (pos : ℕ) (l : List (Option String)),
      ((fun (_ : ℕ) (l : List (Option String)) => l.reverse) pos l).Perm l) ∧
    ((∀ q ∈ (selectCountryQuestions
        (countryCatalogBase ++ (((none : Option PointOfInterest)).map landmarkTemplate).toList)
        3 sampleCountry [sampleCountry2] [0, 3, 8] (fun _ l => l.reverse)).2,
      0 ≤ q.correct ∧ q.correct.toNat < q.options.length ∧
      ∃ i pos, i < (countryCatalogBase
          ++ (((none : Option PointOfInterest)).map landmarkTemplate).toList).length ∧
        q = shuffleQuestion ((fun (_ : ℕ) (l : List (Option String)) => l.reverse) pos)
          (((countryCatalogBase ++ (((none : Option PointOfInterest)).map landmarkTemplate).toList).getD i
            dfltCountryTemplate).template sampleCountry [sampleCountry2]) ∧
        jsElem q.options q.correct
          = jsElem (((countryCatalogBase
              ++ (((none : Option PointOfInterest)).map landmarkTemplate).toList).getD i
              dfltCountryTemplate).template sampleCountry [sampleCountry2]).options 0 ∧
        ∀ m, m < q.correct.toNat → q.options.get? m ≠ some (jsElem q.options q.correct)) ∧
    (∀ q ∈ (selectContinentQuestions continentCatalog 3 "Asia" [sampleCountry] [0]
        (fun _ l => l.reverse)).2,
      0 ≤ q.correct ∧ q.correct.toNat < q.options.length ∧
      ∃ i pos, i < continentCatalog.length ∧
        q = shuffleQuestion ((fun (_ : ℕ) (l : List (Option String)) => l.reverse) pos)
          ((continentCatalog.getD i dfltContinentTemplate).template "Asia" [sampleCountry]) ∧
        jsElem q.options q.correct
          = jsElem ((continentCatalog.getD i dfltContinentTemplate).template "Asia"
              [sampleCountry]).options 0 ∧
        ∀ m, m < q.correct.toNat → q.options.get? m ≠ some (jsElem q.options q.correct))) :=
  ⟨fun _ l => l.reverse_perm
  , c1_correct_preserved_under_shuffle (fun _ l => l.reverse) (fun _ l => l.reverse_perm)
      none 3 sampleCountry [sampleCountry2] "Asia" [sampleCountry] [0, 3, 8] [0]⟩

/-- **C2** (code bug): the option list of the country capital template is
`[country.capital, ...others.slice(0, 3).map(c => c.capital)]`, so its
length is `1 + min 3 (#distractors)` — with an empty distractor list the
template emits a single option, contradicting the required invariant that
every template emit exactly 4 options. -/
theorem c2_capital_template_option_count :
    (∀ (c : Country) (os : List Country),
      (capitalTemplate.template c os).options.length = 1 + min 3 os.length) ∧
    (capitalTemplate.template sampleCountry []).options.length = 1 := by
  refine ⟨?_, rfl⟩
  intro c os
  simp [capitalTemplate]
  omega

/-- **C3** (counterexample): with a landmark POI among the fetched POIs,
`generateCountryQuestions` returns with the country-scoped template catalog
changed — the pushed landmark template persists, so the catalog is not the
same as before the call. -/
theorem c3_catalog_mutation_counterexample :
    (generateCountryQuestions countryCatalogBase 5 sampleCountry (.ok (some []))
      (.ok (some [])) (.ok (some [samplePOI])) [] (fun _ l => l)).1
      ≠ countryCatalogBase := by
  intro h
  have h8 : (generateCountryQuestions countryCatalogBase 5 sampleCountry (.ok (some []))
      (.ok (some [])) (.ok (some [samplePOI])) [] (fun _ l => l)).1.length = 8 := rfl
  rw [h] at h8
  exact absurd h8 (by decide)

/-- **C3** (amended): when a `landmark`-typed POI is found for the focal
country, `generateCountryQuestions` appends the landmark template to the
shared country-scoped catalog and the append persists after the call
returns (so repeated invocations observe templates leaked from earlier
sessions, one per such call); only when no landmark POI is found is the
catalog left unchanged. -/
theorem c3_landmark_template_persists
    (catalog : List CountryTemplate) (count : ℕ) (c : Country)
    (same other : List Country) (ps : List PointOfInterest) (lm : PointOfInterest)
    (draws : List ℕ) (shuf : ℕ → List (Option String) → List (Option String))
    (hfind : ps.find? (fun poi => poi.poi_type = "landmark") = some lm) :
    (generateCountryQuestions catalog count c (.ok (some same)) (.ok (some other))
      (.ok (some ps)) draws shuf).1 = catalog ++ [landmarkTemplate lm] ∧
    ∀ ps', List.find? (fun poi => poi.poi_type = "landmark") ps' = none →
      (generateCountryQuestions catalog count c (.ok (some same)) (.ok (some other))
        (.ok (some ps')) draws shuf).1 = catalog := by
  constructor
  · have hne : 0 < ps.length := by
      cases ps with
      | nil => simp [List.find?] at hfind
      | cons a as => simp
    simp [generateCountryQuestions, hne, hfind]
  · intro ps' hnone
    by_cases h0 : 0 < ps'.length
    · simp [generateCountryQuestions, h0, hnone]
    · simp [generateCountryQuestions, h0]

/-- Witness for the amended C3 at a concrete POI list holding one landmark. -/
theorem c3_landmark_template_persists_witness :
    List.find? (fun poi => poi.poi_type = "landmark") [samplePOI] = some samplePOI ∧
    ((generateCountryQuestions countryCatalogBase 5 sampleCountry (.ok (some []))
      (.ok (some [])) (.ok (some [samplePOI])) [] (fun _ l => l)).1
        = countryCatalogBase ++ [landmarkTemplate samplePOI] ∧
    ∀ ps', List.find? (fun poi => poi.poi_type = "landmark") ps' = none →
      (generateCountryQuestions countryCatalogBase 5 sampleCountry (.ok (some []))
        (.ok (some [])) (.ok (some ps')) [] (fun _ l => l)).1 = countryCatalogBase) :=
  ⟨rfl, c3_landmark_template_persists countryCatalogBase 5 sampleCountry [] [] [samplePOI]
      samplePOI [] (fun _ l => l) rfl⟩

/-- A duplicate-free list of naturals below `n` has at most `n` elements. -/
theorem nodup_lt_length_le {l : List ℕ} {n : ℕ} (hd : l.Nodup)
    (hlt : ∀ x ∈ l, x < n) : l.length ≤ n := by
  have hcard : l.toFinset.card = l.length := List.toFinset_card_of_nodup hd
  have hsub : l.toFinset ⊆ Finset.range n := by
    intro x hx
    exact Finset.mem_range.mpr (hlt x (List.mem_toFinset.mp hx))
  calc l.length = l.toFinset.card := hcard.symm
    _ ≤ (Finset.range n).card := Finset.card_le_card hsub
    _ = n := Finset.card_range n

/-- **C4**: both scoped selectors return at most `count` questions, use
each template at most once (the used-index list is duplicate-free and in
bijection with the output), and — whenever the recorded run reached the
exit condition of the loop — return fewer than `count` questions only because
the whole catalog was exhausted; and `generateRandomQuiz` truncates the
concatenated country/continent batches to at most `count` questions. -/
theorem c4_bounded_without_replacement
    (catalogC : List CountryTemplate) (catalogT : List ContinentTemplate)
    (count : ℕ) (c : Country) (os : List Country) (cont : String) (cs : List Country)
    (draws drawsT : List ℕ)
    (shuf shufT : ℕ → List (Option String) → List (Option String))
    (hdoneC : ¬((selectCountryQuestions catalogC count c os draws shuf).2.length < count ∧
        (selectCountryQuestions catalogC count c os draws shuf).1.length < catalogC.length))
    (hdoneT : ¬((selectContinentQuestions catalogT count cont cs drawsT shufT).2.length < count ∧
        (selectContinentQuestions catalogT count cont cs drawsT shufT).1.length < catalogT.length)) :
    ((selectCountryQuestions catalogC count c os draws shuf).2.length ≤ count ∧
      (selectCountryQuestions catalogC count c os draws shuf).1.Nodup ∧
      (selectCountryQuestions catalogC count c os draws shuf).2.length
        = (selectCountryQuestions catalogC count c os draws shuf).1.length ∧
      ((selectCountryQuestions catalogC count c os draws shuf).2.length < count →
        (selectCountryQuestions catalogC count c os draws shuf).2.length = catalogC.length)) ∧
    ((selectContinentQuestions catalogT count cont cs drawsT shufT).2.length ≤ count ∧
      (selectContinentQuestions catalogT count cont cs drawsT shufT).1.Nodup ∧
      (selectContinentQuestions catalogT count cont cs drawsT shufT).2.length
        = (selectContinentQuestions catalogT count cont cs drawsT shufT).1.length ∧
      ((selectContinentQuestions catalogT count cont cs drawsT shufT).2.length < count →
        (selectContinentQuestions catalogT count cont cs drawsT shufT).2.length
          = catalogT.length)) ∧
    (∀ (fetchAll : Except Unit (Option (List Country))) (pick1 pick2 : ℕ)
        (fS fO : Except Unit (Option (List Country)))
        (fP : Except Unit (Option (List PointOfInterest)))
        (fT : Except Unit (Option (List Country)))
        (shufCountries : List Country → List Country) (d1 d2 : List ℕ)
        (s1 s2 : ℕ → List (Option String) → List (Option String)),
      (generateRandomQuiz catalogC catalogT count fetchAll pick1 pick2 fS fO fP fT
        shufCountries d1 d2 s1 s2).2.length ≤ count) := by
  have hpoolC : ∀ x ∈ weightedPool (catalogC.map (·.weight)), x < catalogC.length := by
    intro x hx
    have := weightedPool_lt _ x hx
    simpa using this
  have hpoolT : ∀ x ∈ weightedPool (catalogT.map (·.weight)), x < catalogT.length := by
    intro x hx
    have := weightedPool_lt _ x hx
    simpa using this
  have iC : (selectCountryQuestions catalogC count c os draws shuf).1.Nodup ∧
      (selectCountryQuestions catalogC count c os draws shuf).2.length
        = (selectCountryQuestions catalogC count c os draws shuf).1.length ∧
      (∀ x ∈ (selectCountryQuestions catalogC count c os draws shuf).1,
        x < catalogC.length) ∧
      (selectCountryQuestions catalogC count c os draws shuf).2.length ≤ count :=
    selectLoop_inv count catalogC.length _ _ hpoolC draws [] []
      List.nodup_nil rfl (by intro x hx; simp at hx) (Nat.zero_le _)
  have iT : (selectContinentQuestions catalogT count cont cs drawsT shufT).1.Nodup ∧
      (selectContinentQuestions catalogT count cont cs drawsT shufT).2.length
        = (selectContinentQuestions catalogT count cont cs drawsT shufT).1.length ∧
      (∀ x ∈ (selectContinentQuestions catalogT count cont cs drawsT shufT).1,
        x < catalogT.length) ∧
      (selectContinentQuestions catalogT count cont cs drawsT shufT).2.length ≤ count :=
    selectLoop_inv count catalogT.length _ _ hpoolT drawsT [] []
      List.nodup_nil rfl (by intro x hx; simp at hx) (Nat.zero_le _)
  obtain ⟨i1, i2, i3, i4⟩ := iC
  obtain ⟨j1, j2, j3, j4⟩ := iT
  refine ⟨⟨i4, i1, i2, ?_⟩, ⟨j4, j1, j2, ?_⟩, ?_⟩
  · intro hlt
    have hge : ¬ (selectCountryQuestions catalogC count c os draws shuf).1.length
        < catalogC.length := fun hc => hdoneC ⟨hlt, hc⟩
    have hle := nodup_lt_length_le i1 i3
    omega
  · intro hlt
    have hge : ¬ (selectContinentQuestions catalogT count cont cs drawsT shufT).1.length
        < catalogT.length := fun hc => hdoneT ⟨hlt, hc⟩
    have hle := nodup_lt_length_le j1 j3
    omega
  · intro fetchAll pick1 pick2 fS fO fP fT shufCountries d1 d2 s1 s2
    rcases fetchAll with _ | dat
    · simp [generateRandomQuiz]
    · rcases dat with _ | cs'
      · simp [generateRandomQuiz]
      · by_cases h0 : cs'.length = 0
        · simp [generateRandomQuiz, h0]
        · simp only [generateRandomQuiz, h0, if_false]
          simp [List.length_take]

/-- Witness for C4 at concrete catalogs, focal data and draw streams (both
runs reach the exit condition of the loop by filling the requested count). -/
theorem c4_bounded_without_replacement_witness :
    (¬((selectCountryQuestions countryCatalogBase 2 sampleCountry [sampleCountry2] [0, 3]
        (fun _ l => l)).2.length < 2 ∧
      (selectCountryQuestions countryCatalogBase 2 sampleCountry [sampleCountry2] [0, 3]
        (fun _ l => l)).1.length < countryCatalogBase.length)) ∧
    (¬((selectContinentQuestions continentCatalog 2 "Asia" [sampleCountry] [0, 3]
        (fun _ l => l)).2.length < 2 ∧
      (selectContinentQuestions continentCatalog 2 "Asia" [sampleCountry] [0, 3]
        (fun _ l => l)).1.length < continentCatalog.length)) ∧
    (((selectCountryQuestions countryCatalogBase 2 sampleCountry [sampleCountry2] [0, 3]
        (fun _ l => l)).2.length ≤ 2 ∧
      (selectCountryQuestions countryCatalogBase 2 sampleCountry [sampleCountry2] [0, 3]
        (fun _ l => l)).1.Nodup ∧
      (selectCountryQuestions countryCatalogBase 2 sampleCountry [sampleCountry2] [0, 3]
        (fun _ l => l)).2.length
        = (selectCountryQuestions countryCatalogBase 2 sampleCountry [sampleCountry2] [0, 3]
            (fun _ l => l)).1.length ∧
      ((selectCountryQuestions countryCatalogBase 2 sampleCountry [sampleCountry2] [0, 3]
          (fun _ l => l)).2.length < 2 →
        (selectCountryQuestions countryCatalogBase 2 sampleCountry [sampleCountry2] [0, 3]
          (fun _ l => l)).2.length = countryCatalogBase.length)) ∧
    ((selectContinentQuestions continentCatalog 2 "Asia" [sampleCountry] [0, 3]
        (fun _ l => l)).2.length ≤ 2 ∧
      (selectContinentQuestions continentCatalog 2 "Asia" [sampleCountry] [0, 3]
        (fun _ l => l)).1.Nodup ∧
      (selectContinentQuestions continentCatalog 2 "Asia" [sampleCountry] [0, 3]
        (fun _ l => l)).2.length
        = (selectContinentQuestions continentCatalog 2 "Asia" [sampleCountry] [0, 3]
            (fun _ l => l)).1.length ∧
      ((selectContinentQuestions continentCatalog 2 "Asia" [sampleCountry] [0, 3]
          (fun _ l => l)).2.length < 2 →
        (selectContinentQuestions continentCatalog 2 "Asia" [sampleCountry] [0, 3]
          (fun _ l => l)).2.length = continentCatalog.length)) ∧
    (∀ (fetchAll : Except Unit (Option (List Country))) (pick1 pick2 : ℕ)
        (fS fO : Except Unit (Option (List Country)))
        (fP : Except Unit (Option (List PointOfInterest)))
        (fT : Except Unit (Option (List Country)))
        (shufCountries : List Country → List Country) (d1 d2 : List ℕ)
        (s1 s2 : ℕ → List (Option String) → List (Option String)),
      (generateRandomQuiz countryCatalogBase continentCatalog 2 fetchAll pick1 pick2
        fS fO fP fT shufCountries d1 d2 s1 s2).2.length ≤ 2)) :=
  ⟨by decide, by decide
  , c4_bounded_without_replacement countryCatalogBase continentCatalog 2 sampleCountry
      [sampleCountry2] "Asia" [sampleCountry] [0, 3] [0, 3] (fun _ l => l) (fun _ l => l)
      (by decide) (by decide)⟩

/-- **C8**: the generators degrade gracefully: a continent whose fetch
yields null data or no rows produces an empty question sequence, and a
caught store/network error (a rejected fetch) makes each of
`generateCountryQuestions`, `generateContinentQuestions` and
`generateRandomQuiz` return an empty question sequence instead of
propagating the error. -/
theorem c8_graceful_empty
    (catalogC : List CountryTemplate) (catalogT : List ContinentTemplate)
    (count : ℕ) (c : Country) (cont : String)
    (fS fO : Except Unit (Option (List Country)))
    (fP : Except Unit (Option (List PointOfInterest)))
    (shufCountries : List Country → List Country) (draws : List ℕ)
    (shuf : ℕ → List (Option String) → List (Option String))
    (pick1 pick2 : ℕ) (fT : Except Unit (Option (List Country))) (d2 : List ℕ)
    (s2 : ℕ → List (Option String) → List (Option String)) :
    generateContinentQuestions catalogT count cont (.ok none) shufCountries draws shuf = [] ∧
    generateContinentQuestions catalogT count cont (.ok (some [])) shufCountries draws shuf
      = [] ∧
    generateContinentQuestions catalogT count cont (.error ()) shufCountries draws shuf = [] ∧
    (generateCountryQuestions catalogC count c (.error ()) fO fP draws shuf).2 = [] ∧
    (generateCountryQuestions catalogC count c fS (.error ()) fP draws shuf).2 = [] ∧
    (generateCountryQuestions catalogC count c fS fO (.error ()) draws shuf).2 = [] ∧
    (generateRandomQuiz catalogC catalogT count (.error ()) pick1 pick2 fS fO fP fT
      shufCountries draws d2 shuf s2).2 = [] ∧
    (generateRandomQuiz catalogC catalogT count (.ok none) pick1 pick2 fS fO fP fT
      shufCountries draws d2 shuf s2).2 = [] ∧
    (generateRandomQuiz catalogC catalogT count (.ok (some [])) pick1 pick2 fS fO fP fT
      shufCountries draws d2 shuf s2).2 = [] := by
  refine ⟨rfl, by simp [generateContinentQuestions], rfl, ?_, ?_, ?_, rfl, rfl,
    by simp [generateRandomQuiz]⟩
  · rfl
  · rcases fS with _ | dS
    · rfl
    · rfl
  · rcases fS with _ | dS
    · rfl
    · rcases fO with _ | dO
      · rfl
      · rfl

/-- A muted loop pass drains the whole queue, firing each pending
callback in order without starting playback. -/
theorem loopGo_muted (l : List ℕ) : loopGo true l = (l.map Ev.done, [], none) := by
  induction l with
  | nil => rfl
  | cons id rest ih => simp [loopGo, ih]

/-- An unmuted loop pass on a nonempty queue starts playback of the head
and suspends. -/
theorem loopGo_unmuted (id : ℕ) (rest : List ℕ) :
    loopGo false (id :: rest) = ([Ev.play id], rest, some id) := rfl

/-- The state invariant tied to a submission history `subm`, preserved by
enqueues, playback completions and pause-timer expirations from the
initial state: the live mute prop and the captured loop value are both
off, exactly one loop is live iff the reentrancy flag is set, an idle queue is empty, phases are consistent with
the in-flight utterance, and the event trace is a FIFO trace — a fully
played prefix of the submission order followed by the playback start of the
in-flight item, with the not-yet-started items still queued in order. -/
def NarrInv (subm : List ℕ) (s : QState) : Prop :=
  s.muted = false ∧
  s.loopMuted = false ∧
  s.loops = (if s.processing then 1 else 0) ∧
  (s.processing = false → s.queue = [] ∧ s.current = none) ∧
  (s.phase = .speaking → s.processing = true) ∧
  (s.phase = .pausing → s.processing = true ∧ s.current = none) ∧
  (s.current.isSome → s.phase = .speaking) ∧
  ∃ fin, s.events = fifoTrace fin ++ optPlay s.current ∧
    subm = fin ++ optList s.current ++ s.queue

/-- One basic step preserves the narration invariant. -/
theorem narrInv_step (subm : List ℕ) (s : QState) (a : Act) (hb : basicAct a = true)
    (h : NarrInv subm s) : NarrInv (subm ++ enqIds [a]) (stepQ s a) := by
  obtain ⟨hm, hlm, hl, hpf, hsp, hpa, hcs, fin, hev, hsub⟩ := h
  cases a with
  | setMuted b => simp [basicAct] at hb
  | stop => simp [basicAct] at hb
  | enq id =>
    show NarrInv (subm ++ enqIds [Act.enq id]) (enqueueStep s id)
    have hids : enqIds [Act.enq id] = [id] := rfl
    rw [hids]
    by_cases hp : s.processing
    · have hstep : enqueueStep s id = { s with queue := s.queue ++ [id] } := by
        simp [enqueueStep, hp]
      rw [hstep]
      refine ⟨hm, hlm, by simpa using hl, ?_, hsp, hpa, hcs, fin, hev, ?_⟩
      · intro h'
        simp only at h'
        exact absurd h' (by simp [hp])
      · show subm ++ [id] = fin ++ optList s.current ++ (s.queue ++ [id])
        rw [hsub]
        simp
    · obtain ⟨hq0, hc0⟩ := hpf (by simpa using hp)
      have hstep : enqueueStep s id
          = loopRun { s with queue := [id], processing := true, narrating := true
                           , loops := s.loops + 1, loopMuted := s.muted } := by
        simp [enqueueStep, hp, hq0]
      have hloops : s.loops = 0 := by simpa [hp] using hl
      have hrun : loopRun { s with queue := [id], processing := true, narrating := true
                                 , loops := s.loops + 1, loopMuted := s.muted }
          = { s with queue := [], processing := true, narrating := true
                   , loops := s.loops + 1, loopMuted := s.muted
                   , events := s.events ++ [Ev.play id]
                   , current := some id, phase := .speaking } := by
        simp [loopRun, hm, loopGo_unmuted]
      rw [hstep, hrun]
      refine ⟨hm, hm, by simp [hloops], by intro h'; simp at h', by intro h'; rfl
        , by intro h'; simp at h', by intro h'; rfl, fin, ?_, ?_⟩
      · simp only [optPlay]
        rw [hev, hc0]
        simp [optPlay]
      · simp only [optList]
        rw [hsub, hc0, hq0]
        simp [optList]
  | playbackEnds =>
    show NarrInv (subm ++ enqIds [Act.playbackEnds]) (playbackEndsStep s)
    have hids : enqIds [Act.playbackEnds] = [] := rfl
    rw [hids, List.append_nil]
    rcases hcur : s.current with _ | i
    · have hstep : playbackEndsStep s = s := by simp [playbackEndsStep, hcur]
      rw [hstep]
      exact ⟨hm, hlm, hl, hpf, hsp, hpa, hcs, fin, hev, hsub⟩
    · have hspk : s.phase = .speaking := hcs (by simp [hcur])
      have hptrue : s.processing = true := hsp hspk
      have hstep : playbackEndsStep s
          = { s with current := none, events := s.events ++ [Ev.done i]
                   , phase := .pausing } := by
        simp [playbackEndsStep, hcur]
      rw [hstep]
      refine ⟨hm, hlm, by simpa using hl, ?_, by intro h'; simp at h'
        , by intro h'; simpa using hptrue, by intro h'; simp at h'
        , fin ++ [i], ?_, ?_⟩
      · intro h'
        simp only at h'
        exact absurd h' (by simp [hptrue])
      · simp only [optPlay]
        rw [hev, hcur]
        simp [fifoTrace, optPlay]
      · simp only [optList]
        rw [hsub, hcur]
        simp [optList]
  | timerFires =>
    show NarrInv (subm ++ enqIds [Act.timerFires]) (timerStep s)
    have hids : enqIds [Act.timerFires] = [] := rfl
    rw [hids, List.append_nil]
    by_cases hph : s.phase = .pausing
    · obtain ⟨hptrue, hc0⟩ := hpa hph
      have hstep : timerStep s = loopRun s := by simp [timerStep, hph]
      have hloops : s.loops = 1 := by simpa [hptrue] using hl
      rcases hq : s.queue with _ | ⟨hd, tl⟩
      · have hrun : loopRun s
            = { s with queue := [], events := s.events ++ [], processing := false
                     , narrating := false, phase := .idle, loops := s.loops - 1 } := by
          rw [loopRun.eq_def, hlm, hq]
          rfl
        rw [hstep, hrun]
        refine ⟨hm, hlm, by simp [hloops], ?_, by intro h'; simp at h'
          , by intro h'; simp at h', ?_, fin, ?_, ?_⟩
        · intro h'
          exact ⟨rfl, by simpa using hc0⟩
        · intro h'
          exact absurd h' (by simp [hc0])
        · show s.events ++ [] = fifoTrace fin ++ optPlay s.current
          rw [List.append_nil, hev]
        · show subm = fin ++ optList s.current ++ []
          rw [hsub, hq]
      · have hrun : loopRun s
            = { s with queue := tl, events := s.events ++ [Ev.play hd]
                     , current := some hd, phase := .speaking } := by
          rw [loopRun.eq_def, hlm, hq]
          rfl
        rw [hstep, hrun]
        refine ⟨hm, hlm, by simpa [hptrue] using hl, ?_, by intro h'; simpa using hptrue
          , by intro h'; simp at h', by intro h'; rfl, fin, ?_, ?_⟩
        · intro h'
          simp only at h'
          exact absurd h' (by simp [hptrue])
        · show s.events ++ [Ev.play hd] = fifoTrace fin ++ optPlay (some hd)
          rw [hev, hc0]
          simp [optPlay]
        · show subm = fin ++ optList (some hd) ++ tl
          rw [hsub, hc0, hq]
          simp [optList]
    · have hstep : timerStep s = s := by simp [timerStep, hph]
      rw [hstep]
      exact ⟨hm, hlm, hl, hpf, hsp, hpa, hcs, fin, hev, hsub⟩

/-- The narration invariant holds along any basic script. -/
theorem narrInv_run :
    ∀ (acts : List Act), (∀ a ∈ acts, basicAct a = true) →
      ∀ (subm : List ℕ) (s : QState), NarrInv subm s →
        NarrInv (subm ++ enqIds acts) (List.foldl stepQ s acts) := by
  intro acts
  induction acts with
  | nil =>
    intro _ subm s h
    simpa [enqIds] using h
  | cons a as ih =>
    intro hb subm s h
    have h1 : NarrInv (subm ++ enqIds [a]) (stepQ s a) :=
      narrInv_step subm s a (hb a (by simp)) h
    have h2 := ih (fun x hx => hb x (by simp [hx])) (subm ++ enqIds [a]) (stepQ s a) h1
    have hsplit : enqIds (a :: as) = enqIds [a] ++ enqIds as := by
      cases a <;> simp [enqIds]
    rw [List.foldl_cons]
    rw [hsplit, ← List.append_assoc]
    exact h2

/-- The initial state satisfies the invariant with an empty history. -/
theorem narrInv_init : NarrInv [] initQ := by
  refine ⟨rfl, rfl, rfl, fun _ => ⟨rfl, rfl⟩, ?_, ?_, ?_, [], rfl, rfl⟩
  · intro h'
    simp [initQ] at h'
  · intro h'
    simp [initQ] at h'
  · intro h'
    simp [initQ] at h'

/-- **C5**: along any script of enqueues, playback completions and pause
expirations, the narration queue behaves as a single-consumer FIFO: the
event trace is exactly a fully played prefix of the submission order — each
playback start of each request immediately followed by its completion
callback, so the callback of a request fires strictly before the playback
of the next request begins — possibly followed by the start of the single in-flight request,
with the remaining submissions still queued in order; and at most one
processing loop is live at any point (exactly one iff the reentrancy flag
is set). -/
theorem c5_narration_fifo_guard (acts : List Act)
    (hb : ∀ a ∈ acts, basicAct a = true) :
    (∃ fin, (runQ acts).events = fifoTrace fin ++ optPlay (runQ acts).current ∧
      enqIds acts = fin ++ optList (runQ acts).current ++ (runQ acts).queue) ∧
    (runQ acts).loops = (if (runQ acts).processing then 1 else 0) ∧
    (runQ acts).loops ≤ 1 := by
  have h := narrInv_run acts hb [] initQ narrInv_init
  obtain ⟨-, -, hl, -, -, -, -, fin, hev, hsub⟩ := h
  refine ⟨⟨fin, by simpa [runQ] using hev, by simpa [runQ] using hsub⟩, ?_, ?_⟩
  · simpa [runQ] using hl
  · rw [show (runQ acts).loops = (List.foldl stepQ initQ acts).loops from rfl]
    rw [show (List.foldl stepQ initQ acts).loops
      = (if (List.foldl stepQ initQ acts).processing then 1 else 0) from hl]
    split <;> omega

/-- Witness for C5 on a concrete two-request script: enqueue 0 and 1 in
quick succession, then let 0 finish and the pause timer fire. -/
theorem c5_narration_fifo_guard_witness :
    (∃ fin, (runQ [Act.enq 0, Act.enq 1, Act.playbackEnds, Act.timerFires]).events
        = fifoTrace fin
          ++ optPlay (runQ [Act.enq 0, Act.enq 1, Act.playbackEnds, Act.timerFires]).current ∧
      enqIds [Act.enq 0, Act.enq 1, Act.playbackEnds, Act.timerFires]
        = fin ++ optList (runQ [Act.enq 0, Act.enq 1, Act.playbackEnds, Act.timerFires]).current
          ++ (runQ [Act.enq 0, Act.enq 1, Act.playbackEnds, Act.timerFires]).queue) ∧
    (runQ [Act.enq 0, Act.enq 1, Act.playbackEnds, Act.timerFires]).loops
      = (if (runQ [Act.enq 0, Act.enq 1, Act.playbackEnds, Act.timerFires]).processing
          then 1 else 0) ∧
    (runQ [Act.enq 0, Act.enq 1, Act.playbackEnds, Act.timerFires]).loops ≤ 1 :=
  c5_narration_fifo_guard [Act.enq 0, Act.enq 1, Act.playbackEnds, Act.timerFires]
    (by decide)

/-- **C6** (counterexample): the claim says that when the mute flag is set
at the moment a request is dequeued its playback is skipped, so toggling
mute while the queue is draining affects the not-yet-started items.  But
`isMuted` is captured by the `processQueue` closure when the loop starts
(the `useCallback` dependency list), not re-read from a ref: after
enqueueing requests 0 and 1 unmuted, letting 0 finish, and muting during
the inter-item pause, the queue is muted when request 1 is dequeued — yet
the resumed loop consults its captured unmuted value and starts audible
playback of request 1 instead of firing its callback immediately. -/
theorem c6_mute_counterexample :
    ¬ (∀ (acts : List Act), (runQ acts).muted = true →
        ∀ id : ℕ, Ev.play id ∉ ((stepQ (runQ acts) Act.timerFires).events.drop
          (runQ acts).events.length)) := by
  intro h
  exact h [Act.enq 0, Act.enq 1, Act.playbackEnds, Act.setMuted true] (by decide)
    1 (by decide)

/-- **C6** (amended): the mute value the loop consults at each dequeue is
the `isMuted` the `processQueue` closure captured when the loop started,
not the live prop.  Toggling mute while a loop is draining does not affect
any item of that loop: the next not-yet-started item still starts audible
playback, the new value applying only to loops started afterwards.  A loop
started while the queue is muted does skip every request it dequeues,
firing each `onComplete` immediately, in order, before the next item and
with no playback — both for the request that started it and for the whole
queue a running muted loop drains. -/
theorem c6_mute_captured_at_loop_start (s : QState) (id hd : ℕ) (tl : List ℕ)
    (hph : s.phase = .pausing) (hlm : s.loopMuted = false) (hq : s.queue = hd :: tl) :
    ((stepQ (stepQ s (Act.setMuted true)) Act.timerFires).events
        = s.events ++ [Ev.play hd] ∧
      (stepQ (stepQ s (Act.setMuted true)) Act.timerFires).current = some hd ∧
      (stepQ (stepQ s (Act.setMuted true)) Act.timerFires).muted = true) ∧
    (∀ t : QState, t.muted = true → t.processing = false → t.queue = [] →
      (stepQ t (Act.enq id)).events = t.events ++ [Ev.done id] ∧
      (stepQ t (Act.enq id)).queue = [] ∧
      (stepQ t (Act.enq id)).current = t.current) ∧
    (∀ u : QState, u.phase = .pausing → u.loopMuted = true →
      (stepQ u Act.timerFires).events = u.events ++ u.queue.map Ev.done ∧
      (stepQ u Act.timerFires).queue = []) := by
  refine ⟨?_, ?_, ?_⟩
  · have hstep1 : stepQ s (Act.setMuted true) = { s with muted := true } := rfl
    have hstep2 : stepQ { s with muted := true } Act.timerFires
        = loopRun { s with muted := true } := by
      simp [stepQ, timerStep, hph]
    rw [hstep1, hstep2]
    have hrun : loopRun { s with muted := true }
        = { s with muted := true, queue := tl,
                   events := s.events ++ [Ev.play hd],
                   current := some hd, phase := .speaking } := by
      rw [loopRun.eq_def]
      simp [hlm, hq, loopGo_unmuted]
    rw [hrun]
    exact ⟨rfl, rfl, rfl⟩
  · intro t hmut hproc hq0
    have hstep : stepQ t (Act.enq id)
        = loopRun { t with queue := [id], processing := true, narrating := true,
                           loops := t.loops + 1, loopMuted := t.muted } := by
      simp [stepQ, enqueueStep, hproc, hq0]
    rw [hstep, loopRun.eq_def]
    simp [hmut, loopGo_muted]
  · intro u hphu hlmu
    have hstep : stepQ u Act.timerFires = loopRun u := by
      simp [stepQ, timerStep, hphu]
    rw [hstep, loopRun.eq_def, hlmu, loopGo_muted]
    exact ⟨rfl, rfl⟩

/-- Witness for the amended C6: a loop in the inter-item pause with
requests 1 and 2 still queued; muting then letting the timer fire starts
playback of request 1 regardless. -/
theorem c6_mute_captured_at_loop_start_witness :
    ((stepQ (stepQ ⟨[1, 2], true, none, false, false, true, .pausing,
          [Ev.play 0, Ev.done 0], 1⟩ (Act.setMuted true)) Act.timerFires).events
        = [Ev.play 0, Ev.done 0] ++ [Ev.play 1] ∧
      (stepQ (stepQ ⟨[1, 2], true, none, false, false, true, .pausing,
          [Ev.play 0, Ev.done 0], 1⟩ (Act.setMuted true)) Act.timerFires).current
        = some 1 ∧
      (stepQ (stepQ ⟨[1, 2], true, none, false, false, true, .pausing,
          [Ev.play 0, Ev.done 0], 1⟩ (Act.setMuted true)) Act.timerFires).muted
        = true) ∧
    (∀ t : QState, t.muted = true → t.processing = false → t.queue = [] →
      (stepQ t (Act.enq 7)).events = t.events ++ [Ev.done 7] ∧
      (stepQ t (Act.enq 7)).queue = [] ∧
      (stepQ t (Act.enq 7)).current = t.current) ∧
    (∀ u : QState, u.phase = .pausing → u.loopMuted = true →
      (stepQ u Act.timerFires).events = u.events ++ u.queue.map Ev.done ∧
      (stepQ u Act.timerFires).queue = []) :=
  c6_mute_captured_at_loop_start
    ⟨[1, 2], true, none, false, false, true, .pausing, [Ev.play 0, Ev.done 0], 1⟩
    7 1 [2] rfl rfl rfl

/-- **C7** (counterexample): the claim says `stopNarration` mid-playback
never fires the completion callback of the canceled in-flight item; but
`synth.cancel()` makes the platform deliver an error event to the in-flight
utterance, whose `onerror` handler invokes `onComplete` — stopping while
item 0 is mid-playback appends `done 0` to the trace. -/
theorem c7_stop_counterexample :
    ¬ (∀ (s : QState) (id : ℕ), s.current = some id →
        Ev.done id ∉ ((stepQ s Act.stop).events.drop s.events.length)) := by
  intro h
  have h0 := h ⟨[], true, some 0, false, false, true, .speaking, [Ev.play 0], 1⟩ 0 rfl
  exact h0 (by decide)

/-- **C7** (amended): `stopNarration` while an item is in flight discards
every queued-but-not-started request — none of their completion callbacks
fires — halts playback and clears the processing flag, but the completion
callback of the canceled in-flight item fires exactly once, via the utterance
error handler that `synth.cancel()` triggers. -/
theorem c7_stop_amended (s : QState) (id : ℕ) (h : s.current = some id) :
    (stepQ s Act.stop).queue = [] ∧
    (stepQ s Act.stop).processing = false ∧
    (stepQ s Act.stop).current = none ∧
    (stepQ s Act.stop).events = s.events ++ [Ev.done id] ∧
    (∀ j ∈ s.queue, j ≠ id →
      Ev.done j ∉ ((stepQ s Act.stop).events.drop s.events.length)) := by
  have hstep : stepQ s Act.stop
      = { s with queue := [], processing := false, narrating := false,
                 current := none, events := s.events ++ [Ev.done id],
                 phase := .pausing } := by
    simp [stepQ, stopStep, h]
  rw [hstep]
  refine ⟨rfl, rfl, rfl, rfl, ?_⟩
  intro j _ hne
  have hdrop : (s.events ++ [Ev.done id]).drop s.events.length = [Ev.done id] :=
    List.drop_left _ _
  rw [show ({ s with queue := ([] : List ℕ), processing := false,
                     narrating := false, current := none,
                     events := s.events ++ [Ev.done id],
                     phase := Phase.pausing } : QState).events
        = s.events ++ [Ev.done id] from rfl]
  rw [hdrop]
  simp [hne]

/-- Witness for the amended C7: stop while item 0 is mid-playback with
item 3 still queued. -/
theorem c7_stop_amended_witness :
    (stepQ ⟨[3], true, some 0, false, false, true, .speaking, [Ev.play 0], 1⟩ Act.stop).queue = [] ∧
    (stepQ ⟨[3], true, some 0, false, false, true, .speaking, [Ev.play 0], 1⟩ Act.stop).processing
      = false ∧
    (stepQ ⟨[3], true, some 0, false, false, true, .speaking, [Ev.play 0], 1⟩ Act.stop).current
      = none ∧
    (stepQ ⟨[3], true, some 0, false, false, true, .speaking, [Ev.play 0], 1⟩ Act.stop).events
      = [Ev.play 0] ++ [Ev.done 0] ∧
    (∀ j ∈ (⟨[3], true, some 0, false, false, true, .speaking, [Ev.play 0], 1⟩ : QState).queue,
      j ≠ 0 →
      Ev.done j ∉ ((stepQ ⟨[3], true, some 0, false, false, true, .speaking, [Ev.play 0], 1⟩
        Act.stop).events.drop
          (⟨[3], true, some 0, false, false, true, .speaking, [Ev.play 0], 1⟩
            : QState).events.length)) :=
  c7_stop_amended ⟨[3], true, some 0, false, false, true, .speaking, [Ev.play 0], 1⟩ 0 rfl

/-- Folding the answer handler over a nonempty tail of a session: the one
completion call reports the running score plus the correct answers among
the remaining questions. -/
theorem runSession_aux (questions : List Question) :
    ∀ (answers : List ℤ) (i score : ℕ) (cs : List (ℕ × ℕ)),
      answers ≠ [] → i + answers.length = questions.length →
      (answers.foldl (handleAnswerSelect questions) ⟨i, score, cs⟩).completions
        = cs ++ [(score + countCorrectFrom questions i answers, questions.length)] := by
  intro answers
  induction answers with
  | nil =>
    intro i score cs hne _
    exact absurd rfl hne
  | cons a as ih =>
    intro i score cs _ hlen
    rw [List.foldl_cons]
    cases as with
    | nil =>
      have hnotlt : ¬ (i + 1 < questions.length) := by
        simp only [List.length_cons, List.length_nil] at hlen
        omega
      simp only [handleAnswerSelect, hnotlt, if_false, List.foldl_nil, countCorrectFrom]
      by_cases hcorr : a = (questions.getD i dfltQuestion).correct
      · simp [hcorr]
      · simp [hcorr]
    | cons a2 as2 =>
      have hlt : i + 1 < questions.length := by
        simp only [List.length_cons] at hlen
        omega
      have hstep : handleAnswerSelect questions ⟨i, score, cs⟩ a
          = ⟨i + 1, score + (if a = (questions.getD i dfltQuestion).correct then 1 else 0),
             cs⟩ := by
        unfold handleAnswerSelect
        simp only [hlt, if_true]
        by_cases hcorr : a = (questions.getD i dfltQuestion).correct
        · rw [if_pos hcorr, if_pos hcorr]
        · rw [if_neg hcorr, if_neg hcorr]
          simp
      rw [hstep]
      rw [ih (i + 1) _ cs (by simp)
        (by simp only [List.length_cons] at hlen ⊢; omega)]
      simp [countCorrectFrom, Nat.add_assoc]

/-- **C9**: a session over `n` questions with one accepted selection per
question invokes the completion callback exactly once, reporting
`(k, n)` where `k` counts the answers matching the `correct` index of
their question — the final answer is counted even though it is scored in the same
step that fires the callback. -/
theorem c9_session_scoring (questions : List Question) (answers : List ℤ)
    (hne : questions ≠ []) (hlen : answers.length = questions.length) :
    (runSession questions answers).completions
      = [(countCorrect questions answers, questions.length)] := by
  have hansne : answers ≠ [] := by
    intro h
    subst h
    simp only [List.length_nil] at hlen
    exact hne (List.length_eq_zero.mp hlen.symm)
  have h := runSession_aux questions answers 0 0 [] hansne (by omega)
  simpa [runSession, countCorrect] using h

/-- Witness for C9: a three-question session answered
correct–incorrect–correct reports `onComplete(2, 3)`. -/
theorem c9_session_scoring_witness :
    (runSession
      [ trueFalseTemplate.template sampleCountry []
      , continentOfTemplate.template sampleCountry []
      , capitalTemplate.template sampleCountry [sampleCountry2] ]
      [0, 5, 0]).completions
      = [(countCorrect
          [ trueFalseTemplate.template sampleCountry []
          , continentOfTemplate.template sampleCountry []
          , capitalTemplate.template sampleCountry [sampleCountry2] ]
          [0, 5, 0],
        ([ trueFalseTemplate.template sampleCountry []
         , continentOfTemplate.template sampleCountry []
         , capitalTemplate.template sampleCountry [sampleCountry2] ]
          : List Question).length)] :=
  c9_session_scoring _ _ (by decide) rfl

/-- **C10**: in the ElevenLabs-backed hook, synthesized audio is memoized
by the `` `${text}_${speed}` `` cache key: replaying the same text at the
same speed returns the cached URL with no further synthesis invocation,
while the same text at a different speed misses the cache and synthesizes
afresh. -/
theorem c10_audio_memoization (synthesize : String → Option String)
    (speed1 speed2 : String) (text url : String)
    (hsynth : synthesize text = some url) (hne : speed1 ≠ speed2) :
    (generateAudio synthesize speed1 ⟨[], 0⟩ text).2 = some url ∧
    (generateAudio synthesize speed1 ⟨[], 0⟩ text).1.synthCalls = 1 ∧
    (generateAudio synthesize speed1 (generateAudio synthesize speed1 ⟨[], 0⟩ text).1 text)
      = ((generateAudio synthesize speed1 ⟨[], 0⟩ text).1, some url) ∧
    (generateAudio synthesize speed2
      (generateAudio synthesize speed1 ⟨[], 0⟩ text).1 text).1.synthCalls = 2 := by
  have hs1 : generateAudio synthesize speed1 ⟨[], 0⟩ text
      = (⟨[(text ++ "_" ++ speed1, url)], 1⟩, some url) := by
    simp [generateAudio, lookupKey, hsynth]
  have hkey : ¬ (text ++ "_" ++ speed1 = text ++ "_" ++ speed2) := by
    intro h
    apply hne
    apply String.ext
    have hd := congrArg String.data h
    rw [String.data_append, String.data_append] at hd
    exact List.append_cancel_left hd
  rw [hs1]
  refine ⟨rfl, rfl, ?_, ?_⟩
  · simp [generateAudio, lookupKey]
  · simp [generateAudio, lookupKey, hkey, hsynth]

/-- Witness for C10 at a concrete synthesis oracle, text and speeds. -/
theorem c10_audio_memoization_witness :
    ((generateAudio (fun t => if t = "hello" then some "blob:url1" else none) "1"
        ⟨[], 0⟩ "hello").2 = some "blob:url1" ∧
      (generateAudio (fun t => if t = "hello" then some "blob:url1" else none) "1"
        ⟨[], 0⟩ "hello").1.synthCalls = 1 ∧
      (generateAudio (fun t => if t = "hello" then some "blob:url1" else none) "1"
        (generateAudio (fun t => if t = "hello" then some "blob:url1" else none) "1"
          ⟨[], 0⟩ "hello").1 "hello")
        = ((generateAudio (fun t => if t = "hello" then some "blob:url1" else none) "1"
            ⟨[], 0⟩ "hello").1, some "blob:url1") ∧
      (generateAudio (fun t => if t = "hello" then some "blob:url1" else none) "1.5"
        (generateAudio (fun t => if t = "hello" then some "blob:url1" else none) "1"
          ⟨[], 0⟩ "hello").1 "hello").1.synthCalls = 2) :=
  c10_audio_memoization (fun t => if t = "hello" then some "blob:url1" else none)
    "1" "1.5" "hello" "blob:url1" (by decide) (by decide)

end WorldyWhiz
